import Mathlib

/- Shallow embedding of the pyfuzzball library (pyfuzzball/base.py and
   pyfuzzball/mcp.py).  Python strings are modelled as `List Char`; Python
   exceptions are modelled with `Except PyError`; socket reads and the
   random tag generator are passed in as explicit parameters. -/

namespace PyFuzzball

/-- The Python exceptions that the embedded fragments can raise. -/
inductive PyError
  | indexError
  | valueError
  | attributeError
  | runtimeError
  deriving DecidableEq, Repr

/-- Python s.startswith(pre): does `l` start with `pre`. -/
def startsWithL : List Char → List Char → Bool
  | _, [] => true
  | [], _ :: _ => false
  | a :: as, b :: bs => a == b && startsWithL as bs

/-- Split `l` at the first occurrence of `sep`; `none` when `sep` is absent.
    Models the first step of Python str.split(sep, 1). -/
def splitOnce (sep : Char) : List Char → Option (List Char × List Char)
  | [] => none
  | c :: rest =>
    if c = sep then some ([], rest)
    else
      match splitOnce sep rest with
      | none => none
      | some (a, b) => some (c :: a, b)

/-- Python str.split(sep, maxsplit): at most `k` splits, left to right. -/
def splitN (sep : Char) : Nat → List Char → List (List Char)
  | 0, l => [l]
  | k + 1, l =>
    match splitOnce sep l with
    | none => [l]
    | some (a, b) => a :: splitN sep k b

/-- Python str.split(sep) with an explicit separator: no run collapsing,
    and the empty string yields a single empty part. -/
def splitAll (sep : Char) : List Char → List (List Char)
  | [] => [[]]
  | c :: rest =>
    if c = sep then [] :: splitAll sep rest
    else
      match splitAll sep rest with
      | [] => [[c]]
      | a :: moreParts => (c :: a) :: moreParts

/-- Split `l` at the last occurrence of `sep` (one step of str.rsplit). -/
def rsplitOnce (sep : Char) (l : List Char) : Option (List Char × List Char) :=
  match splitOnce sep l.reverse with
  | none => none
  | some (a, b) => some (b.reverse, a.reverse)

/-- Python str.rsplit(sep, 2) unpacked into exactly three pieces; `none`
    models the ValueError raised when fewer than two separators exist. -/
def rsplit2 (sep : Char) (l : List Char) : Option (List Char × List Char × List Char) :=
  match rsplitOnce sep l with
  | none => none
  | some (front, last) =>
    match rsplitOnce sep front with
    | none => none
    | some (first, mid) => some (first, mid, last)

/-- The ASCII whitespace class used by Python str.strip and str.isspace. -/
def pyIsSpace (c : Char) : Bool :=
  c = ' ' ∨ c = '\t' ∨ c = '\n' ∨ c = '\r' ∨ c = '\x0b' ∨ c = '\x0c'

/-- Python str.strip(): drop whitespace from both ends. -/
def pythonStrip (l : List Char) : List Char :=
  ((l.dropWhile pyIsSpace).reverse.dropWhile pyIsSpace).reverse

/-- Python str.lower() on ASCII text. -/
def toLowerL (l : List Char) : List Char := l.map Char.toLower

/-- Python `needle in hay` substring membership. -/
def containsSub (needle : List Char) : List Char → Bool
  | [] => needle.isEmpty
  | c :: rest => startsWithL (c :: rest) needle || containsSub needle rest

/-- All characters are ASCII decimal digits. -/
def allDigits (l : List Char) : Bool := l.all Char.isDigit

/-- Decimal value of a digit string. -/
def digitsToNat (l : List Char) : Nat :=
  l.foldl (fun a c => a * 10 + (c.toNat - 48)) 0

/-- Python int(s) on the plain digit strings used for version majors;
    `none` models ValueError. -/
def parseInt? (l : List Char) : Option Nat :=
  if l ≠ [] ∧ allDigits l then some (digitsToNat l) else none

/-- The exact rational value of a Python float parsed from a decimal
    literal, kept as an unreduced numerator over a power-of-ten
    denominator.  IEEE parsing preserves the strict order of such values
    at the precisions occurring in version strings. -/
structure PyFloat where
  num : Nat
  den : Nat
  deriving DecidableEq, Repr

/-- Python float(s) on decimal literals such as "1", "1.9", "1.10";
    `none` models the ValueError raised e.g. on a second dot ("1.3.4"). -/
def parseFloat? (l : List Char) : Option PyFloat :=
  match splitOnce '.' l with
  | none => if l ≠ [] ∧ allDigits l then some ⟨digitsToNat l, 1⟩ else none
  | some (ip, fp) =>
    if fp.contains '.' then none
    else if (ip ≠ [] ∨ fp ≠ []) ∧ allDigits ip ∧ allDigits fp then
      some ⟨digitsToNat ip * 10 ^ fp.length + digitsToNat fp, 10 ^ fp.length⟩
    else none

/-- Strict order on the rational values of two parsed floats. -/
def pfLt (a b : PyFloat) : Bool := decide (a.num * b.den < b.num * a.den)

/-- MCP.version_compare (mcp.py lines 213-246): split each version at the
    first dot, convert the major with int() and the whole remaining tail
    with float(), then compare majors first and the float values second. -/
def version_compare (v1 v2 : List Char) : Except PyError Int :=
  match splitOnce '.' v1, splitOnce '.' v2 with
  | some (maj1, min1), some (maj2, min2) =>
    match parseInt? maj1, parseInt? maj2, parseFloat? min1, parseFloat? min2 with
    | some a1, some a2, some b1, some b2 =>
      .ok (if a1 > a2 then 1
           else if a1 < a2 then (-1)
           else if pfLt b2 b1 then 1
           else if pfLt b1 b2 then (-1)
           else 0)
    | _, _, _, _ => .error .valueError
  | _, _ => .error .valueError

/-- Python txt.replace with a one-character pattern: each backslash
    becomes two backslashes. -/
def replBackslash : List Char → List Char
  | [] => []
  | c :: rest =>
    if c = '\\' then '\\' :: '\\' :: replBackslash rest
    else c :: replBackslash rest

/-- Python txt.replace with a one-character pattern: each double quote
    becomes backslash followed by double quote. -/
def replQuote : List Char → List Char
  | [] => []
  | c :: rest =>
    if c = '"' then '\\' :: '"' :: replQuote rest
    else c :: replQuote rest

/-- MCP.escape (mcp.py lines 248-259):
    txt.replace two-step, backslash first, then the double quote. -/
def escape (txt : List Char) : List Char := replQuote (replBackslash txt)

/-- Python txt.replace("\\\\", "\\"): leftmost non-overlapping collapse of
    backslash pairs into single backslashes. -/
def collapseBB : List Char → List Char
  | [] => []
  | [c] => [c]
  | a :: b :: rest =>
    if a = '\\' ∧ b = '\\' then '\\' :: collapseBB rest
    else a :: collapseBB (b :: rest)

/-- Python txt.replace with the two-character pattern backslash-quote:
    leftmost non-overlapping collapse into a bare double quote. -/
def collapseBQ : List Char → List Char
  | [] => []
  | [c] => [c]
  | a :: b :: rest =>
    if a = '\\' ∧ b = '"' then '"' :: collapseBQ rest
    else a :: collapseBQ (b :: rest)

/-- MCP.unescape (mcp.py lines 261-271): collapse escaped backslashes,
    then escaped quotes. -/
def unescape (txt : List Char) : List Char := collapseBQ (collapseBB txt)

/-- An argument value passed to MCP.call: a plain string or a list of
    strings (multi-line value). -/
inductive MCPVal
  | str (s : List Char)
  | vlist (ls : List (List Char))
  deriving DecidableEq, Repr

/-- isinstance(val, list). -/
def isListVal : MCPVal → Bool
  | .str _ => false
  | .vlist _ => true

/-- Python `any` over the argument dict: does some value hold a list. -/
def hasListArg (args : List (List Char × MCPVal)) : Bool :=
  args.any fun kv => isListVal kv.2

/-- The literal key "_data-tag". -/
def dataTagKey : List Char := "_data-tag".data

/-- The per-argument text appended to the header line by MCP.call
    (mcp.py lines 329-334): ` key*: ""` for list values and
    ` key: "escaped"` for strings, in dict order. -/
def headerArgs : List (List Char × MCPVal) → List Char
  | [] => []
  | (k, MCPVal.str s) :: rest =>
    (' ' :: (k ++ (':' :: ' ' :: '"' :: (escape s ++ ['"'])))) ++ headerArgs rest
  | (k, MCPVal.vlist _) :: rest =>
    (' ' :: (k ++ ('*' :: ':' :: ' ' :: '"' :: '"' :: []))) ++ headerArgs rest

/-- One continuation line '#$#* data-tag key: line' (mcp.py line 352). -/
def contLine (tag k line : List Char) : List Char :=
  '#' :: '$' :: '#' :: '*' :: ' ' :: (tag ++ (' ' :: (k ++ (':' :: ' ' :: line))))

/-- One terminator line '#$#: data-tag' (mcp.py line 354). -/
def termLine (tag : List Char) : List Char :=
  '#' :: '$' :: '#' :: ':' :: ' ' :: tag

/-- The multi-line block emitted by MCP.call (mcp.py lines 345-354): for
    every list-valued key, its continuation lines followed by a
    terminator line, the terminator being written inside the per-key
    loop. -/
def multiBlocks (tag : List Char) : List (List Char × MCPVal) → List (List Char)
  | [] => []
  | (_, MCPVal.str _) :: rest => multiBlocks tag rest
  | (k, MCPVal.vlist ls) :: rest =>
    (ls.map fun line => contLine tag k line) ++ (termLine tag :: multiBlocks tag rest)

/-- The header line composed by MCP.call (mcp.py lines 322-342):
    '#$#package[-message] auth', the argument text, and, when some value
    is a list, the trailing ' _data-tag: "tag"'. -/
def callHeader (pkg msg auth tag : List Char) (args : List (List Char × MCPVal)) : List Char :=
  (if msg ≠ [] then '#' :: '$' :: '#' :: (pkg ++ ('-' :: (msg ++ (' ' :: auth))))
   else '#' :: '$' :: '#' :: (pkg ++ (' ' :: auth)))
  ++ headerArgs args
  ++ (if hasListArg args then ' ' :: (dataTagKey ++ (':' :: ' ' :: '"' :: (tag ++ ['"']))) else [])

/-- The full line sequence written by MCP.call (mcp.py lines 319-357),
    with the randomly generated data tag passed in explicitly. -/
def callLines (pkg msg auth tag : List Char) (args : List (List Char × MCPVal)) :
    List (List Char) :=
  callHeader pkg msg auth tag args ::
    (if hasListArg args then multiBlocks tag args else [])

/-- Number of list-valued arguments. -/
def numListArgs (args : List (List Char × MCPVal)) : Nat :=
  args.countP fun kv => isListVal kv.2

/-- Total number of elements over all list-valued arguments. -/
def sumListLens : List (List Char × MCPVal) → Nat
  | [] => 0
  | (_, MCPVal.str _) :: rest => sumListLens rest
  | (_, MCPVal.vlist ls) :: rest => ls.length + sumListLens rest

/-- A parsed parameter value inside MCP.process: a committed string, or
    the empty list installed for a multi-line placeholder key. -/
inductive PVal
  | s (v : List Char)
  | ml (vs : List (List Char))
  deriving DecidableEq, Repr

/-- Python dict assignment parameters[k] = v on an insertion-ordered
    association list: overwrite in place, else append. -/
def setParam (params : List (List Char × PVal)) (k : List Char) (v : PVal) :
    List (List Char × PVal) :=
  match params with
  | [] => [(k, v)]
  | (k0, v0) :: rest => if k0 = k then (k0, v) :: rest else (k0, v0) :: setParam rest k v

/-- Python dict lookup parameters[k]. -/
def getParam : List (List Char × PVal) → List Char → Option PVal
  | [], _ => none
  | (k0, v0) :: rest, k => if k0 = k then some v0 else getParam rest k

/-- The local state of the argument state machine of MCP.process
    (mcp.py lines 548-552), together with the parameters dict and the
    multi_liners list that the loop body mutates. -/
structure ArgSM where
  key : List Char
  value : List Char
  is_escaped : Bool
  key_accumulate : Bool
  in_quote : Bool
  params : List (List Char × PVal)
  mls : List (List Char)
  deriving DecidableEq, Repr

/-- Initial state of the argument state machine. -/
def argInit : ArgSM :=
  { key := [], value := [], is_escaped := false, key_accumulate := true,
    in_quote := false, params := [], mls := [] }

/-- One character step of the argument state machine of MCP.process
    (mcp.py lines 554-616), transcribed branch for branch. -/
def argStep (st : ArgSM) (x : Char) : ArgSM :=
  if st.key_accumulate then
    if x = ':' then { st with key_accumulate := false }
    else if x = ' ' ∧ st.key = [] then st
    else { st with key := st.key ++ [x] }
  else if ¬ st.in_quote then
    if x = '"' then { st with in_quote := true }
    else if x ≠ ' ' ∧ st.key = dataTagKey then { st with in_quote := true, value := [x] }
    else st
  else if st.is_escaped then { st with value := st.value ++ [x], is_escaped := false }
  else if x = '\\' then { st with is_escaped := true }
  else if x = '"' then
    if st.key.getLast? = some '*' then
      { st with
        key_accumulate := true
        in_quote := false
        mls := st.mls ++ [st.key.dropLast]
        params := setParam st.params st.key.dropLast (.ml [])
        key := []
        value := [] }
    else
      { st with
        key_accumulate := true
        in_quote := false
        params := setParam st.params st.key (.s st.value)
        key := []
        value := [] }
  else if pyIsSpace x ∧ st.key = dataTagKey then
    { st with
      in_quote := false
      key_accumulate := true
      params := setParam st.params st.key (.s st.value)
      key := []
      value := [] }
  else { st with value := st.value ++ [x] }

/-- The trailing-_data-tag cleanup after the character loop
    (mcp.py lines 621-626); note is_escaped is left untouched. -/
def finishDataTag (st : ArgSM) : ArgSM :=
  if st.key = dataTagKey then
    { st with
      in_quote := false
      key_accumulate := true
      params := setParam st.params dataTagKey (.s st.value)
      key := []
      value := [] }
  else st

/-- What MCP.process does with one header line: drop it into the
    unknown_lines list, deliver a complete message, or open a multi-line
    reassembly. -/
inductive HeaderOutcome
  | unknown
  | delivered (pkg msg : List Char) (params : List (List Char × PVal))
  | startMulti (pkg msg : List Char) (params : List (List Char × PVal))
      (mls : List (List Char)) (tag : PVal)
  deriving DecidableEq, Repr

/-- MCP.process on one inbound header line (mcp.py lines 478-665),
    reached when the line starts with '#$#' and no multi-line reassembly
    is active.  `catalog` is the negotiated package catalog in insertion
    order.  Raised IndexErrors of parts[1] and parts[2] are modelled as
    `.error .indexError`. -/
def processHeaderLine (auth : List Char) (catalog : List (List Char)) (line : List Char) :
    Except PyError HeaderOutcome :=
  match splitN ' ' 2 (line.drop 3) with
  | [] => .error .indexError
  | [_] => .error .indexError
  | p0 :: p1 :: restParts =>
    if p1 ≠ auth then .ok .unknown
    else
      match catalog.filter (fun pkg => startsWithL p0 (pkg ++ ['-'])) with
      | [] => .ok .unknown
      | d :: ds =>
        let desired :=
          if ds ≠ [] then
            match (d :: ds).find? (fun pk => pk == p0) with
            | some e => e
            | none => d
          else d
        let mesg := if desired ≠ p0 then p0.drop (desired.length + 1) else []
        match restParts with
        | [] => .error .indexError
        | p2 :: _ =>
          if p2 = [] then .ok (.delivered desired mesg [])
          else
            let stFinal := finishDataTag ((pythonStrip p2).foldl argStep argInit)
            if ¬ stFinal.key_accumulate ∨ stFinal.in_quote ∨ stFinal.is_escaped then
              .ok .unknown
            else if stFinal.mls ≠ [] then
              match getParam stFinal.params dataTagKey with
              | none => .ok .unknown
              | some tv => .ok (.startMulti desired mesg stFinal.params stFinal.mls tv)
            else .ok (.delivered desired mesg stFinal.params)

/-- What MCP.process does with one line while a multi-line reassembly is
    in progress. -/
inductive MultiOutcome
  | unknown
  | appendVal (key : List Char) (v : List Char)
  | endBlock
  | dropped
  deriving DecidableEq, Repr

/-- MCP.process on one '#$#'-prefixed line while multi_liners is
    non-empty (mcp.py lines 429-476).  `data_tag` is the tag recorded
    from the opening header; continuation tags are compared with it by
    raw string equality (line 447). -/
def handleMultiLine (data_tag : List Char) (mls : List (List Char)) (line : List Char) :
    Except PyError MultiOutcome :=
  match line.get? 3 with
  | none => .error .indexError
  | some c =>
    if c = '*' then
      match splitOnce ':' line with
      | none => .error .valueError
      | some (meta, value) =>
        let md := splitAll ' ' meta
        match md.get? 1 with
        | none => .error .indexError
        | some echoTag =>
          if data_tag ≠ echoTag then .ok .unknown
          else
            match md.get? 2 with
            | none => .error .indexError
            | some k =>
              if ¬ mls.contains k then .ok .unknown
              else .ok (.appendVal k (value.drop 1))
    else if c = ':' then .ok .endBlock
    else .ok .dropped

/-- The banner while loop of the MCP constructor (mcp.py lines 38-43):
    while not mcp_proto and tries < 3, read and strip a line and bump
    tries.  The fuel is an upper bound on the remaining iterations;
    starting from tries = 0 a fuel of 3 is never exhausted. -/
def bannerLoop (reads : Nat → List Char) : Nat → List Char → Nat → List Char × Nat
  | 0, proto, tries => (proto, tries)
  | fuel + 1, proto, tries =>
    if proto = [] ∧ tries < 3 then
      bannerLoop reads fuel (pythonStrip (reads tries)) (tries + 1)
    else (proto, tries)

/-- The banner phase of the MCP constructor (mcp.py lines 38-46): run the
    retry loop, then raise RuntimeError when tries >= 3. -/
def readBanner (reads : Nat → List Char) : Except PyError (List Char) :=
  let r := bannerLoop reads 3 [] 0
  if r.2 ≥ 3 then .error .runtimeError else .ok r.1

/-- Catalog lookup: `name in self.catalog` / `self.catalog[name]` over the
    insertion-ordered catalog of (package, min-version, max-version). -/
def lookupCatalog : List (List Char × List Char × List Char) → List Char →
    Option (List Char × List Char)
  | [], _ => none
  | (k, mn, mx) :: rest, name => if k = name then some (mn, mx) else lookupCatalog rest name

/-- The literal package name "mcp-negotiate". -/
def mcpNegotiateName : List Char := "mcp-negotiate".data

/-- One outgoing '#$#mcp-negotiate-can ...' line (mcp.py lines 192-194). -/
def canLine (auth name minv maxv : List Char) : List Char :=
  ("#$#mcp-negotiate-can ".data) ++ auth ++ (" package: \"".data) ++ name ++
  ("\" min-version: \"".data) ++ minv ++ ("\" max-version: \"".data) ++ maxv ++ ['"']

/-- The closing '#$#mcp-negotiate-end ...' line (mcp.py line 197). -/
def negotiateEndLine (auth : List Char) : List Char :=
  ("#$#mcp-negotiate-end ".data) ++ auth

/-- The request-building for loop of MCP.negotiate (mcp.py lines
    174-194): for each requested package, either rsplit an explicit
    name:min:max triple or default the versions from the catalog, raising
    RuntimeError for packages the server did not advertise. -/
def negotiateLoop (cat : List (List Char × List Char × List Char)) (auth : List Char) :
    List (List Char) → Except PyError (List (List Char))
  | [] => .ok []
  | pkg :: rest =>
    if pkg.contains ':' then
      match rsplit2 ':' pkg with
      | none => .error .valueError
      | some (name, minv, maxv) =>
        if (lookupCatalog cat name).isSome then
          match negotiateLoop cat auth rest with
          | .error e => .error e
          | .ok ls => .ok (canLine auth name minv maxv :: ls)
        else .error .runtimeError
    else
      match lookupCatalog cat pkg with
      | none => .error .runtimeError
      | some (mn, mx) =>
        match negotiateLoop cat auth rest with
        | .error e => .error e
        | .ok ls => .ok (canLine auth pkg mn mx :: ls)

/-- The MCP session state consulted by negotiate. -/
structure MCPState where
  catalog : List (List Char × List Char × List Char)
  client_negotiated : List (List Char)
  deriving DecidableEq, Repr

/-- MCP.negotiate (mcp.py lines 128-200).  The first component is the
    list of request lines written on success (or the raised error); the
    second component is the final contents of the caller-supplied
    `packages` list object, which line 171 mutates in place by appending
    "mcp-negotiate" whenever that package is in the server catalog. -/
def negotiate (st : MCPState) (auth : List Char) (packages : List (List Char)) :
    Except PyError (List (List Char)) × List (List Char) :=
  if st.client_negotiated ≠ [] then (.error .runtimeError, packages)
  else
    let packagesAfter :=
      if (lookupCatalog st.catalog mcpNegotiateName).isSome then
        packages ++ [mcpNegotiateName]
      else packages
    ((negotiateLoop st.catalog auth packagesAfter).map
        (fun ls => ls ++ [negotiateEndLine auth]),
     packagesAfter)

/-- The transport state that FuzzballBase.close manipulates: the socket
    reference, which close replaces by None. -/
structure Transport where
  socket : Option Unit
  deriving DecidableEq, Repr

/-- FuzzballBase.close (base.py lines 59-68): shutdown and close the
    socket, then clear the reference.  When the reference is already
    None, `self.socket.shutdown(2)` raises AttributeError. -/
def close (t : Transport) : Except PyError Transport :=
  match t.socket with
  | some _ => .ok { socket := none }
  | none => .error .attributeError

/-- The login failure marker text (base.py line 210). -/
def noSuchPlayerText : List Char := "either that player does not exist".data

/-- FuzzballBase.login (base.py lines 194-215) after the connect line has
    been written: `response` is the one line read, `pending` the internal
    line queue.  Returns the Python return value (None on fall-through)
    and the final queue. -/
def login (response : List Char) (pending : List (List Char)) :
    Option Bool × List (List Char) :=
  if containsSub noSuchPlayerText (toLowerL response) then (some false, pending)
  else (none, response :: pending)

/-- Concrete banner line used for evaluating the embedded functions. -/
def sampleBanner : List Char := "#$#mcp version: \"2.1\" to: \"2.1\"".data

/-- Concrete successful-login MOTD line. -/
def sampleWelcome : List Char := "### Welcome to the game. ###".data

/-- Concrete call arguments with a single list-valued key. -/
def cArgsOne : List (List Char × MCPVal) :=
  [("a".data, MCPVal.vlist ["x".data, "y".data])]

/-- Concrete call arguments with two list-valued keys. -/
def cArgsTwo : List (List Char × MCPVal) :=
  [("a".data, MCPVal.vlist ["x".data]), ("b".data, MCPVal.vlist ["y".data])]

/-- Concrete session state whose catalog advertises mcp-negotiate. -/
def sampleState : MCPState :=
  { catalog := [(mcpNegotiateName, "1.0".data, "2.0".data)], client_negotiated := [] }

/-- Helper for the round trip: collapseBB walks over a non-backslash head. -/
theorem collapseBB_cons_of_ne (c : Char) (l : List Char) (hc : c ≠ '\\') :
    collapseBB (c :: l) = c :: collapseBB l := by
  cases l with
  | nil => rfl
  | cons b rest => simp [collapseBB, hc]

/-- Helper for the round trip: undoing the backslash doubling through the
    quote replacement leaves exactly the quote replacement. -/
theorem collapseBB_escape (s : List Char) : collapseBB (escape s) = replQuote s := by
  induction s with
  | nil => rfl
  | cons c t ih =>
    by_cases hb : c = '\\'
    · subst hb
      calc collapseBB (escape ('\\' :: t)) = '\\' :: collapseBB (escape t) := rfl
        _ = '\\' :: replQuote t := by rw [ih]
        _ = replQuote ('\\' :: t) := rfl
    · by_cases hq : c = '"'
      · subst hq
        calc collapseBB (escape ('"' :: t))
            = '\\' :: collapseBB ('"' :: escape t) := rfl
          _ = '\\' :: '"' :: collapseBB (escape t) := by
              rw [collapseBB_cons_of_ne '"' _ (by decide)]
          _ = '\\' :: '"' :: replQuote t := by rw [ih]
          _ = replQuote ('"' :: t) := rfl
      · have h1 : escape (c :: t) = c :: escape t := by
          simp [escape, replBackslash, replQuote, hb, hq]
        rw [h1, collapseBB_cons_of_ne c _ hb, ih]
        simp [replQuote, hq]

/-- Helper for the round trip: replQuote only produces the empty list
    from the empty list. -/
theorem replQuote_eq_nil {t : List Char} (h : replQuote t = []) : t = [] := by
  cases t with
  | nil => rfl
  | cons c r => by_cases hq : c = '"' <;> simp [replQuote, hq] at h

/-- Helper for the round trip: replQuote never puts a bare quote first. -/
theorem replQuote_head_ne_quote (t : List Char) :
    replQuote t = [] ∨ ∃ d u, replQuote t = d :: u ∧ d ≠ '"' := by
  cases t with
  | nil => exact Or.inl rfl
  | cons c r =>
    by_cases hq : c = '"'
    · subst hq
      exact Or.inr ⟨'\\', '"' :: replQuote r, rfl, by decide⟩
    · exact Or.inr ⟨c, replQuote r, by simp [replQuote, hq], hq⟩

/-- Helper for the round trip: collapsing escaped quotes undoes the quote
    replacement. -/
theorem collapseBQ_replQuote (s : List Char) : collapseBQ (replQuote s) = s := by
  induction s with
  | nil => rfl
  | cons c t ih =>
    by_cases hq : c = '"'
    · subst hq
      calc collapseBQ (replQuote ('"' :: t)) = '"' :: collapseBQ (replQuote t) := rfl
        _ = '"' :: t := by rw [ih]
    · rcases replQuote_head_ne_quote t with h0 | ⟨d, u, hdu, hd⟩
      · have ht : t = [] := replQuote_eq_nil h0
        subst ht
        simp [replQuote, hq, collapseBQ]
      · by_cases hb : c = '\\'
        · subst hb
          rw [show replQuote ('\\' :: t) = '\\' :: replQuote t from rfl, hdu]
          rw [show collapseBQ ('\\' :: d :: u) = '\\' :: collapseBQ (d :: u) by
            simp [collapseBQ, hd]]
          rw [← hdu, ih]
        · rw [show replQuote (c :: t) = c :: replQuote t by simp [replQuote, hq], hdu]
          rw [show collapseBQ (c :: d :: u) = c :: collapseBQ (d :: u) by
            simp [collapseBQ, hb]]
          rw [← hdu, ih]

/-- C4: for every ASCII string s, unescape (escape s) = s, where escape
    doubles backslashes and then escapes double quotes, and unescape
    collapses doubled backslashes and then escaped quotes; the functions
    round-trip for strings with quotes, backslashes, both adjacent in any
    order, and neither. -/
theorem C4_escape_unescape_roundtrip (s : List Char) : unescape (escape s) = s := by
  show collapseBQ (collapseBB (escape s)) = s
  rw [collapseBB_escape, collapseBQ_replQuote]

/-- Helper for call emission: a continuation line is never a terminator
    line (they differ at their fourth character). -/
theorem contLine_ne_termLine (tag k line : List Char) :
    contLine tag k line ≠ termLine tag := by
  intro h
  simp only [contLine, termLine, List.cons.injEq] at h
  exact absurd h.2.2.2.1 (by decide)

/-- Helper for call emission: the multi-line block holds one line per
    list element plus one terminator per list-valued key. -/
theorem multiBlocks_length (tag : List Char) (args : List (List Char × MCPVal)) :
    (multiBlocks tag args).length = sumListLens args + numListArgs args := by
  induction args with
  | nil => rfl
  | cons kv rest ih =>
    obtain ⟨k, v⟩ := kv
    cases v with
    | str s =>
      simpa [multiBlocks, sumListLens, numListArgs, List.countP_cons, isListVal] using ih
    | vlist ls =>
      simp [multiBlocks, sumListLens, numListArgs, List.countP_cons, isListVal] at ih ⊢
      omega

/-- Helper for call emission: the number of terminator lines in the
    multi-line block equals the number of list-valued keys. -/
theorem multiBlocks_count_term (tag : List Char) (args : List (List Char × MCPVal)) :
    (multiBlocks tag args).count (termLine tag) = numListArgs args := by
  induction args with
  | nil => rfl
  | cons kv rest ih =>
    obtain ⟨k, v⟩ := kv
    cases v with
    | str s => simpa [multiBlocks, numListArgs, List.countP_cons, isListVal] using ih
    | vlist ls =>
      have hmap : (ls.map fun line => contLine tag k line).count (termLine tag) = 0 := by
        rw [List.count_eq_zero]
        intro hmem
        rcases List.mem_map.mp hmem with ⟨l, _, hl⟩
        exact contLine_ne_termLine tag k l hl
      simp [multiBlocks, numListArgs, List.countP_cons, isListVal, List.count_append,
            List.count_cons_self, hmap] at ih ⊢
      omega

/-- C2 (amended): when at least one argument value is a list, call emits
    one header line followed by, for each list-valued key in order, that
    key's continuation lines and then a terminator line; hence the total
    number of lines is 1 + (sum of list lengths) + (number of list-valued
    keys), and the number of terminator lines equals the number of
    list-valued keys rather than one. -/
theorem C2_call_per_key_terminators (pkg msg auth tag : List Char)
    (args : List (List Char × MCPVal)) (h : hasListArg args = true) :
    callLines pkg msg auth tag args =
      callHeader pkg msg auth tag args :: multiBlocks tag args ∧
    (callLines pkg msg auth tag args).length =
      1 + (sumListLens args + numListArgs args) ∧
    (multiBlocks tag args).count (termLine tag) = numListArgs args := by
  refine ⟨by simp [callLines, h], ?_, multiBlocks_count_term tag args⟩
  simp [callLines, h, multiBlocks_length]
  omega

/-- C2 counterexample: with two list-valued arguments the emitted
    sequence interleaves a terminator after each key's continuation
    lines, so it contains two terminator lines, not exactly one at the
    end as the claim states. -/
theorem C2_counterexample :
    callLines ("pkg".data) [] ("1".data) ("7".data) cArgsTwo =
      [callHeader ("pkg".data) [] ("1".data) ("7".data) cArgsTwo,
       contLine ("7".data) ("a".data) ("x".data), termLine ("7".data),
       contLine ("7".data) ("b".data) ("y".data), termLine ("7".data)] ∧
    (callLines ("pkg".data) [] ("1".data) ("7".data) cArgsTwo).count
        (termLine ("7".data)) = 2 := by
  constructor <;> rfl

/-- C2 witness: the amended emission shape evaluated at a call with one
    list-valued key of two elements. -/
theorem C2_witness :
    hasListArg cArgsOne = true ∧
    (callLines ("pkg".data) [] ("1".data) ("7".data) cArgsOne =
        callHeader ("pkg".data) [] ("1".data) ("7".data) cArgsOne ::
          multiBlocks ("7".data) cArgsOne ∧
      (callLines ("pkg".data) [] ("1".data) ("7".data) cArgsOne).length =
        1 + (sumListLens cArgsOne + numListArgs cArgsOne) ∧
      (multiBlocks ("7".data) cArgsOne).count (termLine ("7".data)) =
        numListArgs cArgsOne) :=
  ⟨by decide,
   C2_call_per_key_terminators ("pkg".data) [] ("1".data) ("7".data) cArgsOne (by decide)⟩

/-- C1: process compares the echoed data tag with the recorded one by
    raw string equality (mcp.py line 447), so a tag recorded as BF2547A
    and echoed as 0BF2547A is routed to the unrecognized list even though
    the two tags agree after stripping leading zero characters, contrary
    to the claimed zero-insensitive matching. -/
theorem C1_zero_prefixed_tag_rejected :
    handleMultiLine ("BF2547A".data) ["text".data]
        ("#$#* 0BF2547A text: line one".data) = .ok .unknown ∧
    ("0BF2547A".data).dropWhile (fun c => c == '0') =
      ("BF2547A".data).dropWhile (fun c => c == '0') := by
  constructor <;> rfl

/-- C3: process raises IndexError instead of returning: a header line
    carrying only a resolvable tag and the correct auth key (no argument
    text) trips the unconditional parts[2] access of mcp.py line 531, and
    a ' #$#'-prefixed line without any space trips the parts[1] access of
    line 482. -/
theorem C3_header_without_arguments_raises :
    processHeaderLine ("123456".data) ["mcp-negotiate".data]
        ("#$#mcp-negotiate-end 123456".data) = .error .indexError ∧
    processHeaderLine ("123456".data) ["mcp-negotiate".data]
        ("#$#foo".data) = .error .indexError := by
  constructor <;> rfl

/-- C5: version_compare converts the minor tail with float(), so the
    tail 1.10 compares below 1.9 (the call returns -1 where the claimed
    lexicographic numeric order requires 1), and a tail with two dots
    such as 1.3.4 raises ValueError instead of succeeding. -/
theorem C5_version_compare_float_minor :
    version_compare ("2.1.10".data) ("2.1.9".data) = .ok (-1) ∧
    version_compare ("2.1.3.4".data) ("2.1".data) = .error .valueError := by
  constructor <;> rfl

/-- C6: the banner loop increments tries to 3 whenever the first two
    reads are empty, and the constructor then raises on tries >= 3
    (mcp.py line 45) even though the third read returned a non-empty
    banner, contrary to the claim that a non-empty third attempt
    proceeds to the grammar match. -/
theorem C6_nonempty_third_read_still_raises :
    readBanner (fun n => if n < 2 then [] else sampleBanner) = .error .runtimeError ∧
    (fun n => if n < 2 then ([] : List Char) else sampleBanner) 2 = sampleBanner ∧
    pythonStrip sampleBanner ≠ [] := by
  refine ⟨rfl, rfl, by decide⟩

/-- C7 counterexample: a header line whose tag is exactly a negotiated
    package name yields no candidate in the startswith(package + "-")
    scan, so the line lands in unrecognized, not in results. -/
theorem C7_counterexample :
    processHeaderLine ("123456".data) ["mcp-negotiate".data]
        ("#$#mcp-negotiate 123456 x: \"y\"".data) = .ok .unknown ∧
    ∀ params, (Except.ok (.delivered ("mcp-negotiate".data) [] params) :
        Except PyError HeaderOutcome) ≠ .ok .unknown := by
  constructor
  · rfl
  · intro params h
    simp at h

/-- C7 (amended): candidates for resolving the tag of an inbound header
    line come only from the strict-extension test startswith(P + "-");
    when the auth key matches and no negotiated package passes that test
    for the tag — in particular when the tag is exactly equal to a
    negotiated package name and no other negotiated package followed by
    '-' is a prefix of it — the line is appended to unrecognized rather
    than delivered. -/
theorem C7_exact_tag_goes_to_unrecognized (auth : List Char)
    (catalog : List (List Char)) (line p0 p2 : List Char) (rest : List (List Char))
    (hsplit : splitN ' ' 2 (line.drop 3) = p0 :: auth :: p2 :: rest)
    (_hexact : p0 ∈ catalog)
    (hnoext : ∀ pkg ∈ catalog, startsWithL p0 (pkg ++ ['-']) = false) :
    processHeaderLine auth catalog line = .ok .unknown := by
  unfold processHeaderLine
  rw [hsplit]
  have hfil : catalog.filter (fun pkg => startsWithL p0 (pkg ++ ['-'])) = [] :=
    List.filter_eq_nil_iff.mpr (fun a ha => by simp [hnoext a ha])
  simp [hfil]

/-- C7 witness: the amended routing evaluated on a concrete catalog and
    a header line whose tag equals the negotiated package name abc. -/
theorem C7_witness :
    splitN ' ' 2 (("#$#abc 1 k: \"v\"".data).drop 3) =
      ("abc".data) :: ("1".data) :: ("k: \"v\"".data) :: [] ∧
    ("abc".data) ∈ [("abc".data)] ∧
    (∀ pkg ∈ [("abc".data)], startsWithL ("abc".data) (pkg ++ ['-']) = false) ∧
    processHeaderLine ("1".data) [("abc".data)] ("#$#abc 1 k: \"v\"".data) = .ok .unknown :=
  ⟨by decide, by decide, by decide,
   C7_exact_tag_goes_to_unrecognized ("1".data) [("abc".data)]
     ("#$#abc 1 k: \"v\"".data) ("abc".data) ("k: \"v\"".data) []
     (by decide) (by decide) (by decide)⟩

/-- C8: login never returns True: on a line without the failure marker
    it re-inserts the line at the head of the queue and falls off the
    end of the function, returning None (base.py lines 208-215), not the
    boolean True its docstring and the claim promise. -/
theorem C8_login_never_returns_true :
    (∀ response pending, (login response pending).1 ≠ some true) ∧
    login sampleWelcome [] = (none, [sampleWelcome]) := by
  constructor
  · intro response pending
    by_cases h : containsSub noSuchPlayerText (toLowerL response) = true
    · simp [login, h]
    · simp [login, h]
  · rfl

/-- C9 counterexample: the first close succeeds and clears the socket
    reference; the second close then raises AttributeError on
    None.shutdown (base.py line 65), so close is not idempotent. -/
theorem C9_counterexample :
    close { socket := some () } = .ok { socket := none } ∧
    close { socket := none } = .error .attributeError := ⟨rfl, rfl⟩

/-- C9 (amended): close is not idempotent: after any successful close the
    socket reference is None, and a second close raises AttributeError. -/
theorem C9_second_close_raises (t u : Transport) (h : close t = .ok u) :
    close u = .error .attributeError := by
  obtain ⟨s⟩ := t
  cases s with
  | none => simp [close] at h
  | some sv =>
    simp only [close] at h
    injection h with h2
    rw [← h2]
    rfl

/-- C9 witness: the amended non-idempotence evaluated on a freshly open
    transport. -/
theorem C9_witness :
    close { socket := some () } = .ok { socket := none } ∧
    close { socket := none } = .error .attributeError :=
  ⟨rfl, C9_second_close_raises { socket := some () } { socket := none } rfl⟩

/-- C10: whenever the session has not negotiated yet and mcp-negotiate is
    in the server catalog, negotiate appends "mcp-negotiate" to the very
    packages list object the caller passed in (mcp.py line 171), so the
    caller's list is exactly one entry longer after the call. -/
theorem C10_negotiate_appends_to_caller_list (st : MCPState) (auth : List Char)
    (packages : List (List Char))
    (h1 : st.client_negotiated = [])
    (h2 : (lookupCatalog st.catalog mcpNegotiateName).isSome = true) :
    (negotiate st auth packages).2 = packages ++ [mcpNegotiateName] ∧
    packages.length < (negotiate st auth packages).2.length := by
  have hmain : (negotiate st auth packages).2 = packages ++ [mcpNegotiateName] := by
    simp [negotiate, h1, h2]
  refine ⟨hmain, ?_⟩
  rw [hmain]
  simp

/-- C10 witness: the in-place append evaluated on a concrete session
    state advertising mcp-negotiate and an empty caller list. -/
theorem C10_witness :
    sampleState.client_negotiated = [] ∧
    (lookupCatalog sampleState.catalog mcpNegotiateName).isSome = true ∧
    ((negotiate sampleState ("99".data) []).2 = [] ++ [mcpNegotiateName] ∧
      List.length ([] : List (List Char)) < (negotiate sampleState ("99".data) []).2.length) :=
  ⟨rfl, by decide, C10_negotiate_appends_to_caller_list sampleState ("99".data) [] rfl (by decide)⟩

end PyFuzzball
